import Mathlib

set_option maxHeartbeats 1000000

/- Verification development for the levels resource of the editor backend.

   The embedding covers:
   - the level data model and its two representations (JsonLevel with
     per-field presence expressed through Option, DatastoreLevel with
     value-plus-flag pairs), together with the conversions between them
     and the parent-property merge (package level);
   - the memcache-backed cache (package cache), modelled as an association
     list from string keys to cached values, with get/set/delete;
   - the route handlers of the levels package: the recursive resolver
     getLevel, the invalidation helpers, and the POST/DELETE/query
     handlers.  The datastore is modelled as an association list from
     entity id to record; the keys-only ancestor query enumerates the
     list in order; parent-scoped child queries filter on the stored
     Parent property.

   Numeric wire types: the source uses int32 and float32 fields, but never
   computes with them (they are only copied, compared and serialized), so
   they are modelled as Int and Rat respectively.  Go maps are modelled as
   association lists of key/value pairs.  Fallible external calls
   (datastore put/delete/queries) take a Bool flag selecting success or
   failure, since the handlers branch only on whether an error occurred.
   Unbounded parent recursion is given a fuel parameter; running out of
   fuel is the diverge outcome (a cyclic parent chain in the source would
   recurse forever). -/

abbrev Float32 := Rat

structure datastoreSpawnFrequency where
  UnitType : String := ""
  SpawnFrequency : Float32 := 0
deriving DecidableEq, Repr

structure JsonLevel where
  Key : Option String := none
  Parent : Option String := none
  Name : Option String := none
  Rows : Option Int := none
  Columns : Option Int := none
  Health : Option Int := none
  Duration : Option Int := none
  ComboTimer : Option Float32 := none
  UnitDelayMultiplier : Option Float32 := none
  MaxActiveUnits : Option Int := none
  SpawnsPerSecond : Option Float32 := none
  SpawnFrequency : Option (List (String × Float32)) := none
deriving DecidableEq, Repr

/- Field defaults are the Go zero values: the source builds a DatastoreLevel
   with `&DatastoreLevel\x7b\x7d` and then fills fields in. -/
structure DatastoreLevel where
  Key : String := ""
  HasKey : Bool := false
  Parent : String := ""
  HasParent : Bool := false
  Name : String := ""
  HasName : Bool := false
  Rows : Int := 0
  HasRows : Bool := false
  Columns : Int := 0
  HasColumns : Bool := false
  Health : Int := 0
  HasHealth : Bool := false
  Duration : Int := 0
  HasDuration : Bool := false
  ComboTimer : Float32 := 0
  HasComboTimer : Bool := false
  UnitDelayMultiplier : Float32 := 0
  HasUnitDelayMultiplier : Bool := false
  MaxActiveUnits : Int := 0
  HasMaxActiveUnits : Bool := false
  SpawnsPerSecond : Float32 := 0
  HasSpawnsPerSecond : Bool := false
  SpawnFrequency : List datastoreSpawnFrequency := []
  HasSpawnFrequency : Bool := false
deriving DecidableEq, Repr

/- MergeParentProperties: for every inheritable field, if the receiver
   leaves it unset and the parent sets it, copy the parent value and mark
   it set.  Key and Parent (and their flags) are never touched. -/
def MergeParentProperties (level parentLevel : DatastoreLevel) : DatastoreLevel :=
  { level with
    HasName := if !level.HasName && parentLevel.HasName then true else level.HasName
    Name := if !level.HasName && parentLevel.HasName then parentLevel.Name else level.Name
    HasRows := if !level.HasRows && parentLevel.HasRows then true else level.HasRows
    Rows := if !level.HasRows && parentLevel.HasRows then parentLevel.Rows else level.Rows
    HasColumns := if !level.HasColumns && parentLevel.HasColumns then true else level.HasColumns
    Columns := if !level.HasColumns && parentLevel.HasColumns then parentLevel.Columns else level.Columns
    HasHealth := if !level.HasHealth && parentLevel.HasHealth then true else level.HasHealth
    Health := if !level.HasHealth && parentLevel.HasHealth then parentLevel.Health else level.Health
    HasDuration := if !level.HasDuration && parentLevel.HasDuration then true else level.HasDuration
    Duration := if !level.HasDuration && parentLevel.HasDuration then parentLevel.Duration else level.Duration
    HasComboTimer := if !level.HasComboTimer && parentLevel.HasComboTimer then true else level.HasComboTimer
    ComboTimer := if !level.HasComboTimer && parentLevel.HasComboTimer then parentLevel.ComboTimer else level.ComboTimer
    HasUnitDelayMultiplier := if !level.HasUnitDelayMultiplier && parentLevel.HasUnitDelayMultiplier then true else level.HasUnitDelayMultiplier
    UnitDelayMultiplier := if !level.HasUnitDelayMultiplier && parentLevel.HasUnitDelayMultiplier then parentLevel.UnitDelayMultiplier else level.UnitDelayMultiplier
    HasMaxActiveUnits := if !level.HasMaxActiveUnits && parentLevel.HasMaxActiveUnits then true else level.HasMaxActiveUnits
    MaxActiveUnits := if !level.HasMaxActiveUnits && parentLevel.HasMaxActiveUnits then parentLevel.MaxActiveUnits else level.MaxActiveUnits
    HasSpawnsPerSecond := if !level.HasSpawnsPerSecond && parentLevel.HasSpawnsPerSecond then true else level.HasSpawnsPerSecond
    SpawnsPerSecond := if !level.HasSpawnsPerSecond && parentLevel.HasSpawnsPerSecond then parentLevel.SpawnsPerSecond else level.SpawnsPerSecond
    HasSpawnFrequency := if !level.HasSpawnFrequency && parentLevel.HasSpawnFrequency then true else level.HasSpawnFrequency
    SpawnFrequency := if !level.HasSpawnFrequency && parentLevel.HasSpawnFrequency then parentLevel.SpawnFrequency else level.SpawnFrequency }

/- ToDatastoreLevel: start from the zero record; for each non-nil JSON
   field copy the value and set the presence flag.  The spawn-frequency
   map becomes a slice of UnitType/SpawnFrequency entries. -/
def ToDatastoreLevel (level : JsonLevel) : DatastoreLevel :=
  { Key := level.Key.getD ""
    HasKey := level.Key.isSome
    Parent := level.Parent.getD ""
    HasParent := level.Parent.isSome
    Name := level.Name.getD ""
    HasName := level.Name.isSome
    Rows := level.Rows.getD 0
    HasRows := level.Rows.isSome
    Columns := level.Columns.getD 0
    HasColumns := level.Columns.isSome
    Health := level.Health.getD 0
    HasHealth := level.Health.isSome
    Duration := level.Duration.getD 0
    HasDuration := level.Duration.isSome
    ComboTimer := level.ComboTimer.getD 0
    HasComboTimer := level.ComboTimer.isSome
    UnitDelayMultiplier := level.UnitDelayMultiplier.getD 0
    HasUnitDelayMultiplier := level.UnitDelayMultiplier.isSome
    MaxActiveUnits := level.MaxActiveUnits.getD 0
    HasMaxActiveUnits := level.MaxActiveUnits.isSome
    SpawnsPerSecond := level.SpawnsPerSecond.getD 0
    HasSpawnsPerSecond := level.SpawnsPerSecond.isSome
    SpawnFrequency :=
      (level.SpawnFrequency.getD []).map
        (fun kv => { UnitType := kv.1, SpawnFrequency := kv.2 })
    HasSpawnFrequency := level.SpawnFrequency.isSome }

/- ToJsonLevel: for each set flag produce a some, otherwise nil.  The
   spawn-frequency slice becomes a map again. -/
def ToJsonLevel (level : DatastoreLevel) : JsonLevel :=
  { Key := if level.HasKey then some level.Key else none
    Parent := if level.HasParent then some level.Parent else none
    Name := if level.HasName then some level.Name else none
    Rows := if level.HasRows then some level.Rows else none
    Columns := if level.HasColumns then some level.Columns else none
    Health := if level.HasHealth then some level.Health else none
    Duration := if level.HasDuration then some level.Duration else none
    ComboTimer := if level.HasComboTimer then some level.ComboTimer else none
    UnitDelayMultiplier := if level.HasUnitDelayMultiplier then some level.UnitDelayMultiplier else none
    MaxActiveUnits := if level.HasMaxActiveUnits then some level.MaxActiveUnits else none
    SpawnsPerSecond := if level.HasSpawnsPerSecond then some level.SpawnsPerSecond else none
    SpawnFrequency :=
      if level.HasSpawnFrequency then
        some (level.SpawnFrequency.map (fun e => (e.UnitType, e.SpawnFrequency)))
      else none }

/- Cached values: either a level-cache entry (a DatastoreLevel) or a
   response-cache entry (path, status code and body), matching the two
   CacheItem implementations of the levels package. -/

inductive RespBody where
  | nullBody
  | textBody (s : String)
  | levelBody (l : JsonLevel)
  | listBody (ls : List JsonLevel)
deriving DecidableEq, Repr

structure ResponseCacheEntry where
  Path : String := ""
  Code : Nat := 0
  Response : RespBody := RespBody.nullBody
deriving DecidableEq, Repr

inductive CacheVal where
  | levelVal (l : DatastoreLevel)
  | respVal (r : ResponseCacheEntry)
deriving DecidableEq, Repr

abbrev Store := List (String × DatastoreLevel)

abbrev Cache := List (String × CacheVal)

/- Association-list primitives shared by the store and the cache models:
   get finds the first binding, put overwrites in place or appends, and
   delete removes every binding for the key (memcache.Set and Delete
   semantics; datastore.Put and Delete semantics). -/

def alistGet {V : Type} (s : List (String × V)) (k : String) : Option V :=
  (s.find? (fun kv => kv.1 == k)).map (fun kv => kv.2)

def alistPut {V : Type} (s : List (String × V)) (k : String) (v : V) : List (String × V) :=
  if s.any (fun kv => kv.1 == k) then
    s.map (fun kv => if kv.1 == k then (k, v) else kv)
  else
    s ++ [(k, v)]

def alistDel {V : Type} (s : List (String × V)) (k : String) : List (String × V) :=
  s.filter (fun kv => kv.1 != k)

/- Cache key scheme of the levels package. -/

def queryAllKey : String := "query:all@levels"

def buildResourcePath (levelId : String) : String := "/levels/" ++ levelId

def levelCacheKey (levelId : String) : String := "level:" ++ levelId

def responseCacheKey (path : String) : String := "response:" ++ path

/- cacheGetLevel: lookup in the level cache; a missing key or a value of
   the wrong shape (an unmarshal failure in the source) is a miss. -/
def cacheGetLevel (cache : Cache) (levelId : String) : Option DatastoreLevel :=
  match alistGet cache (levelCacheKey levelId) with
  | some (CacheVal.levelVal l) => some l
  | _ => none

def storeGet (store : Store) (levelId : String) : Option DatastoreLevel :=
  alistGet store levelId

/- hasUsableParent: the guard of the parent-resolution branch in getLevel,
   `result.HasParent && len(result.Parent) > 0` in the source. -/
def hasUsableParent (l : DatastoreLevel) : Bool :=
  l.HasParent && (l.Parent.length != 0)

/- Outcome of getLevel: a resolved level plus the cache as updated by the
   call, a datastore ErrNoSuchEntity, or nontermination (fuel ran out;
   the source has no cycle guard). -/
inductive GetLevelOutcome where
  | ok (lvl : DatastoreLevel) (cache : Cache)
  | noSuchEntity
  | diverge
deriving DecidableEq, Repr

/- getLevel: check the level cache; on a miss load the raw record from the
   datastore (absent record fails with ErrNoSuchEntity); if the record has
   a usable parent reference, recursively resolve the parent and merge its
   properties in; cache the finalized record under its own Key field. -/
def getLevel : Nat → Store → Cache → String → GetLevelOutcome
  | 0, _, _, _ => GetLevelOutcome.diverge
  | fuel + 1, store, cache, levelId =>
    match cacheGetLevel cache levelId with
    | some cached => GetLevelOutcome.ok cached cache
    | none =>
      match storeGet store levelId with
      | none => GetLevelOutcome.noSuchEntity
      | some raw =>
        if hasUsableParent raw then
          match getLevel fuel store cache raw.Parent with
          | GetLevelOutcome.ok parentLevel cache1 =>
            let merged := MergeParentProperties raw parentLevel
            GetLevelOutcome.ok merged
              (alistPut cache1 (levelCacheKey merged.Key) (CacheVal.levelVal merged))
          | GetLevelOutcome.noSuchEntity => GetLevelOutcome.noSuchEntity
          | GetLevelOutcome.diverge => GetLevelOutcome.diverge
        else
          GetLevelOutcome.ok raw
            (alistPut cache (levelCacheKey raw.Key) (CacheVal.levelVal raw))

def isOk : GetLevelOutcome → Bool
  | GetLevelOutcome.ok _ _ => true
  | _ => false

/- Invalidation helpers of the levels package. -/

def invalidateLevelCaches (cache : Cache) (levelId : String) : Cache :=
  alistDel (alistDel cache (responseCacheKey (buildResourcePath levelId))) (levelCacheKey levelId)

/- childKeys: the keys-only parent-scoped query, Filter on the stored
   Parent property equal to parentId. -/
def childKeys (store : Store) (parentId : String) : List String :=
  (store.filter (fun kv => kv.2.Parent == parentId)).map (fun kv => kv.1)

/- invalidateChildLevelCaches: query the direct children and invalidate
   the caches of each one; a failed query is swallowed (early return with
   the cache untouched).  Note that it calls invalidateLevelCaches on each
   child, not itself. -/
def invalidateChildLevelCaches (queryOk : Bool) (store : Store) (cache : Cache) (parentId : String) : Cache :=
  if queryOk then (childKeys store parentId).foldl invalidateLevelCaches cache
  else cache

def invalidateQueryCaches (cache : Cache) : Cache :=
  alistDel cache (responseCacheKey queryAllKey)

structure HttpResponse where
  code : Nat
  body : RespBody
deriving DecidableEq, Repr

structure World where
  store : Store
  cache : Cache
deriving DecidableEq, Repr

/- handlePost (also handlePut, which just calls it): overwrite the body
   key with the URL path id, write the record to the datastore, then run
   the three invalidation steps and report 200.  putOk models whether the
   datastore write succeeds; queryChildrenOk models whether the child
   query inside the invalidation succeeds.  JSON-binding failures happen
   before this model starts (the body argument is the parsed level). -/
def handlePost (putOk queryChildrenOk : Bool) (body : JsonLevel) (pathId : String) (w : World) : HttpResponse × World :=
  let body1 := { body with Key := some pathId }
  let dsLevel := ToDatastoreLevel body1
  if putOk then
    let store1 := alistPut w.store dsLevel.Key dsLevel
    let cache1 := invalidateLevelCaches w.cache dsLevel.Key
    let cache2 := invalidateChildLevelCaches queryChildrenOk store1 cache1 dsLevel.Key
    let cache3 := invalidateQueryCaches cache2
    ({ code := 200, body := RespBody.nullBody }, { store := store1, cache := cache3 })
  else
    ({ code := 500, body := RespBody.textBody "Failed to store the level" }, w)

/- handleDelete: delete from the datastore, then the same invalidation
   steps, and report 200. -/
def handleDelete (deleteOk queryChildrenOk : Bool) (levelId : String) (w : World) : HttpResponse × World :=
  if deleteOk then
    let store1 := alistDel w.store levelId
    let cache1 := invalidateLevelCaches w.cache levelId
    let cache2 := invalidateChildLevelCaches queryChildrenOk store1 cache1 levelId
    let cache3 := invalidateQueryCaches cache2
    ({ code := 200, body := RespBody.nullBody }, { store := store1, cache := cache3 })
  else
    ({ code := 500, body := RespBody.textBody "Failed to delete the level" }, w)

/- resolveEach: the loop of handleQuery; resolve each enumerated id
   through getLevel, keeping only the successes, threading the cache. -/
def resolveEach (fuel : Nat) (store : Store) : Cache → List String → List DatastoreLevel × Cache
  | cache, [] => ([], cache)
  | cache, levelId :: rest =>
    match getLevel fuel store cache levelId with
    | GetLevelOutcome.ok lvl cache1 =>
      let r := resolveEach fuel store cache1 rest
      (lvl :: r.1, r.2)
    | _ => resolveEach fuel store cache rest

/- queryKeys: the keys-only ancestor query with Limit(100); on a query
   error the key list stays nil (the source never checks that error). -/
def queryKeys (queryOk : Bool) (store : Store) : List String :=
  if queryOk then (store.map (fun kv => kv.1)).take 100 else []

/- handleQuery: serve from the response cache when possible; otherwise
   enumerate up to 100 keys, resolve each, cache the 200 response under
   the aggregate key and return it. -/
def handleQuery (queryOk : Bool) (fuel : Nat) (w : World) : HttpResponse × World :=
  match alistGet w.cache (responseCacheKey queryAllKey) with
  | some (CacheVal.respVal entry) => ({ code := entry.Code, body := entry.Response }, w)
  | _ =>
    let keys := queryKeys queryOk w.store
    let resolved := resolveEach fuel w.store w.cache keys
    let response := resolved.1.map ToJsonLevel
    let cacheEntry : ResponseCacheEntry :=
      { Path := queryAllKey, Code := 200, Response := RespBody.listBody response }
    let cache1 := alistPut resolved.2 (responseCacheKey queryAllKey) (CacheVal.respVal cacheEntry)
    ({ code := 200, body := RespBody.listBody response }, { store := w.store, cache := cache1 })

/- Ancestor chains.  mergeChain folds MergeParentProperties down a chain
   the way the recursive resolver does: the entity merged with the already
   merged view of its parent.  chainInStore levelId l0 chain states that
   the store maps levelId to l0, that the parent links follow the chain,
   and that the last chain member has no usable parent reference. -/

def mergeChain : DatastoreLevel → List DatastoreLevel → DatastoreLevel
  | l, [] => l
  | l, p :: rest => MergeParentProperties l (mergeChain p rest)

def chainInStore (store : Store) : String → DatastoreLevel → List DatastoreLevel → Bool
  | levelId, l, [] =>
    (storeGet store levelId == some l) && !(hasUsableParent l)
  | levelId, l, p :: rest =>
    (storeGet store levelId == some l) && hasUsableParent l
      && chainInStore store l.Parent p rest

/- Field views: a uniform handle on the ten inheritable fields, pairing
   the presence flag with the value (injected into one value type), used
   to state the per-field merge property once. -/

inductive FieldVal where
  | s (v : String)
  | i (v : Int)
  | r (v : Float32)
  | freq (v : List datastoreSpawnFrequency)
deriving DecidableEq, Repr

structure FieldView where
  has : DatastoreLevel → Bool
  val : DatastoreLevel → FieldVal

def nameField : FieldView := { has := fun l => l.HasName, val := fun l => FieldVal.s l.Name }

def rowsField : FieldView := { has := fun l => l.HasRows, val := fun l => FieldVal.i l.Rows }

def columnsField : FieldView := { has := fun l => l.HasColumns, val := fun l => FieldVal.i l.Columns }

def healthField : FieldView := { has := fun l => l.HasHealth, val := fun l => FieldVal.i l.Health }

def durationField : FieldView := { has := fun l => l.HasDuration, val := fun l => FieldVal.i l.Duration }

def comboTimerField : FieldView := { has := fun l => l.HasComboTimer, val := fun l => FieldVal.r l.ComboTimer }

def unitDelayMultiplierField : FieldView := { has := fun l => l.HasUnitDelayMultiplier, val := fun l => FieldVal.r l.UnitDelayMultiplier }

def maxActiveUnitsField : FieldView := { has := fun l => l.HasMaxActiveUnits, val := fun l => FieldVal.i l.MaxActiveUnits }

def spawnsPerSecondField : FieldView := { has := fun l => l.HasSpawnsPerSecond, val := fun l => FieldVal.r l.SpawnsPerSecond }

def spawnFrequencyField : FieldView := { has := fun l => l.HasSpawnFrequency, val := fun l => FieldVal.freq l.SpawnFrequency }

def levelFields : List FieldView :=
  [nameField, rowsField, columnsField, healthField, durationField, comboTimerField,
   unitDelayMultiplierField, maxActiveUnitsField, spawnsPerSecondField, spawnFrequencyField]

/- Concrete records and worlds used by counterexamples and witnesses. -/

def exLevelA : DatastoreLevel :=
  { Key := "a", HasKey := true, Rows := 1, HasRows := true, Columns := 2, HasColumns := true }

def exLevelB : DatastoreLevel :=
  { Key := "b", HasKey := true, Parent := "a", HasParent := true, Name := "child", HasName := true }

def exLevelC : DatastoreLevel :=
  { Key := "c", HasKey := true, Parent := "b", HasParent := true }

def exChainStore : Store := [("a", exLevelA), ("b", exLevelB)]

def exTreeStore : Store := [("a", exLevelA), ("b", exLevelB), ("c", exLevelC)]

def exTreeCache : Cache :=
  [(levelCacheKey "b", CacheVal.levelVal (MergeParentProperties exLevelB exLevelA)),
   (levelCacheKey "c", CacheVal.levelVal exLevelC),
   (responseCacheKey (buildResourcePath "c"),
     CacheVal.respVal { Path := buildResourcePath "c", Code := 200,
                        Response := RespBody.levelBody (ToJsonLevel exLevelC) })]

def exTreeWorld : World := { store := exTreeStore, cache := exTreeCache }

def exFullLevel : DatastoreLevel :=
  { Key := "c", HasKey := true, Parent := "p", HasParent := true,
    Name := "n", HasName := true, Rows := 1, HasRows := true,
    Columns := 1, HasColumns := true, Health := 1, HasHealth := true,
    Duration := 1, HasDuration := true, ComboTimer := 1, HasComboTimer := true,
    UnitDelayMultiplier := 1, HasUnitDelayMultiplier := true,
    MaxActiveUnits := 1, HasMaxActiveUnits := true,
    SpawnsPerSecond := 1, HasSpawnsPerSecond := true,
    SpawnFrequency := [{ UnitType := "u", SpawnFrequency := 1 }], HasSpawnFrequency := true }

def exFullStore : Store := [("c", exFullLevel)]

def exEmptyParentLevel : DatastoreLevel :=
  { Key := "c", HasKey := true, Parent := "", HasParent := true, Name := "n", HasName := true }

def exEmptyParentStore : Store := [("c", exEmptyParentLevel)]

def exDanglingLevel : DatastoreLevel :=
  { Key := "x", HasKey := true, Parent := "zzz", HasParent := true }

def exListStore : Store := [("a", exLevelA), ("x", exDanglingLevel)]

def exListWorld : World := { store := exListStore, cache := [] }

/- Association-list lemmas. -/

theorem alistGet_cons {V : Type} (kv : String × V) (rest : List (String × V)) (k : String) :
    alistGet (kv :: rest) k = if kv.1 = k then some kv.2 else alistGet rest k := by
  by_cases h : kv.1 = k
  · simp [alistGet, List.find?_cons_of_pos, h]
  · simp only [alistGet, h, if_false]
    rw [List.find?_cons_of_neg]
    simp [h]

theorem alistGet_del_eq {V : Type} (s : List (String × V)) (k k' : String) :
    alistGet (alistDel s k) k' = if k' = k then none else alistGet s k' := by
  induction s with
  | nil => by_cases h : k' = k <;> simp [alistGet, alistDel, h]
  | cons kv rest ih =>
    by_cases h1 : kv.1 = k
    · have hdel : alistDel (kv :: rest) k = alistDel rest k := by
        simp [alistDel, List.filter_cons, h1]
      rw [hdel, ih]
      by_cases h2 : k' = k
      · simp [h2]
      · have h3 : ¬ (kv.1 = k') := by
          rw [h1]
          exact fun hh => h2 hh.symm
        rw [alistGet_cons]
        simp [h2, h3]
    · have hdel : alistDel (kv :: rest) k = kv :: alistDel rest k := by
        simp [alistDel, List.filter_cons, h1]
      rw [hdel, alistGet_cons, alistGet_cons, ih]
      by_cases h2 : kv.1 = k'
      · have h3 : ¬ (k' = k) := fun hh => h1 (h2.trans hh)
        simp [h2, h3]
      · simp [h2]

theorem alistGet_del_self {V : Type} (s : List (String × V)) (k : String) :
    alistGet (alistDel s k) k = none := by
  simp [alistGet_del_eq]

theorem alistGet_del_of_none {V : Type} (s : List (String × V)) (k k' : String)
    (h : alistGet s k' = none) : alistGet (alistDel s k) k' = none := by
  rw [alistGet_del_eq]
  split <;> simp [h]

theorem alistGet_put_self {V : Type} (s : List (String × V)) (k : String) (v : V) :
    alistGet (alistPut s k v) k = some v := by
  induction s with
  | nil => simp [alistPut, alistGet]
  | cons kv rest ih =>
    by_cases h1 : kv.1 = k
    · have hany : (kv :: rest).any (fun kv => kv.1 == k) = true := by
        simp [List.any_cons, h1]
      simp only [alistPut, hany, if_true, List.map_cons]
      rw [alistGet_cons]
      simp [h1]
    · by_cases h2 : rest.any (fun kv => kv.1 == k)
      · have hany : (kv :: rest).any (fun kv => kv.1 == k) = true := by
          simp [List.any_cons, h2]
        simp only [alistPut, hany, if_true, List.map_cons]
        have hkv : (if (kv.1 == k) = true then (k, v) else kv) = kv := by simp [h1]
        rw [hkv, alistGet_cons]
        simp only [h1, if_false]
        have ih2 := ih
        simp only [alistPut, h2, if_true] at ih2
        exact ih2
      · have hany : (kv :: rest).any (fun kv => kv.1 == k) = false := by
          rw [List.any_cons]
          have e1 : (kv.1 == k) = false := by simp [h1]
          have e2 : rest.any (fun kv => kv.1 == k) = false := Bool.eq_false_iff.mpr h2
          rw [e1, e2]
          rfl
        simp only [alistPut, hany, Bool.false_eq_true, if_false, List.cons_append]
        rw [alistGet_cons]
        simp only [h1, if_false]
        have ih2 := ih
        simp only [alistPut, h2, Bool.false_eq_true, if_false] at ih2
        exact ih2

/- Invalidation lemmas: invalidateLevelCaches removes exactly its two keys
   and never resurrects an absent key; folding it over a key list keeps
   every listed key absent. -/

theorem invalidateLevelCaches_of_none (cache : Cache) (levelId : String) (k : String)
    (h : alistGet cache k = none) :
    alistGet (invalidateLevelCaches cache levelId) k = none := by
  unfold invalidateLevelCaches
  exact alistGet_del_of_none _ _ _ (alistGet_del_of_none _ _ _ h)

theorem invalidateLevelCaches_kills_level (cache : Cache) (levelId : String) :
    alistGet (invalidateLevelCaches cache levelId) (levelCacheKey levelId) = none := by
  unfold invalidateLevelCaches
  exact alistGet_del_self _ _

theorem invalidateLevelCaches_kills_resp (cache : Cache) (levelId : String) :
    alistGet (invalidateLevelCaches cache levelId) (responseCacheKey (buildResourcePath levelId)) = none := by
  unfold invalidateLevelCaches
  exact alistGet_del_of_none _ _ _ (alistGet_del_self _ _)

theorem foldl_inv_of_none : ∀ (ids : List String) (cache : Cache) (k : String),
    alistGet cache k = none →
    alistGet (ids.foldl invalidateLevelCaches cache) k = none := by
  intro ids
  induction ids with
  | nil => intro cache k h; exact h
  | cons a rest ih =>
    intro cache k h
    exact ih _ _ (invalidateLevelCaches_of_none _ _ _ h)

theorem foldl_inv_kills : ∀ (ids : List String) (cache : Cache) (cid : String),
    cid ∈ ids →
    alistGet (ids.foldl invalidateLevelCaches cache) (levelCacheKey cid) = none ∧
    alistGet (ids.foldl invalidateLevelCaches cache) (responseCacheKey (buildResourcePath cid)) = none := by
  intro ids
  induction ids with
  | nil => intro cache cid h; cases h
  | cons a rest ih =>
    intro cache cid h
    rcases List.mem_cons.mp h with h | h
    · subst h
      constructor
      · exact foldl_inv_of_none rest (invalidateLevelCaches cache cid) _
          (invalidateLevelCaches_kills_level cache cid)
      · exact foldl_inv_of_none rest (invalidateLevelCaches cache cid) _
          (invalidateLevelCaches_kills_resp cache cid)
    · exact ih _ _ h

/- The full invalidation cascade run by handlePost and handleDelete on a
   mutated id: the id loses both of its cache entries, every direct child
   loses both of its entries, and the aggregate-listing key is evicted. -/
theorem cascade_invalidation (store : Store) (cache : Cache) (xid : String) :
    (∀ cid ∈ childKeys store xid,
      alistGet (invalidateQueryCaches (invalidateChildLevelCaches true store (invalidateLevelCaches cache xid) xid)) (levelCacheKey cid) = none ∧
      alistGet (invalidateQueryCaches (invalidateChildLevelCaches true store (invalidateLevelCaches cache xid) xid)) (responseCacheKey (buildResourcePath cid)) = none) ∧
    alistGet (invalidateQueryCaches (invalidateChildLevelCaches true store (invalidateLevelCaches cache xid) xid)) (levelCacheKey xid) = none ∧
    alistGet (invalidateQueryCaches (invalidateChildLevelCaches true store (invalidateLevelCaches cache xid) xid)) (responseCacheKey (buildResourcePath xid)) = none ∧
    alistGet (invalidateQueryCaches (invalidateChildLevelCaches true store (invalidateLevelCaches cache xid) xid)) (responseCacheKey queryAllKey) = none := by
  have hchild : invalidateChildLevelCaches true store (invalidateLevelCaches cache xid) xid
      = (childKeys store xid).foldl invalidateLevelCaches (invalidateLevelCaches cache xid) := by
    simp [invalidateChildLevelCaches]
  refine ⟨?_, ?_, ?_, ?_⟩
  · intro cid hcid
    have hk := foldl_inv_kills (childKeys store xid) (invalidateLevelCaches cache xid) cid hcid
    constructor
    · unfold invalidateQueryCaches
      rw [hchild]
      exact alistGet_del_of_none _ _ _ hk.1
    · unfold invalidateQueryCaches
      rw [hchild]
      exact alistGet_del_of_none _ _ _ hk.2
  · unfold invalidateQueryCaches
    rw [hchild]
    exact alistGet_del_of_none _ _ _
      (foldl_inv_of_none _ _ _ (invalidateLevelCaches_kills_level _ _))
  · unfold invalidateQueryCaches
    rw [hchild]
    exact alistGet_del_of_none _ _ _
      (foldl_inv_of_none _ _ _ (invalidateLevelCaches_kills_resp _ _))
  · unfold invalidateQueryCaches
    rw [hchild]
    exact alistGet_del_self _ _

/- resolveEach facts: the result never outgrows its input, and it splits
   along list append, threading the cache. -/

theorem resolveEach_length_le (fuel : Nat) (store : Store) :
    ∀ (ids : List String) (cache : Cache),
      ((resolveEach fuel store cache ids).1).length ≤ ids.length := by
  intro ids
  induction ids with
  | nil => intro cache; simp [resolveEach]
  | cons levelId rest ih =>
    intro cache
    unfold resolveEach
    cases getLevel fuel store cache levelId with
    | ok lvl cache1 =>
      simpa using Nat.succ_le_succ (ih cache1)
    | noSuchEntity =>
      exact Nat.le_trans (ih cache) (Nat.le_succ _)
    | diverge =>
      exact Nat.le_trans (ih cache) (Nat.le_succ _)

theorem resolveEach_cons (fuel : Nat) (store : Store) (cache : Cache) (levelId : String) (rest : List String) :
    resolveEach fuel store cache (levelId :: rest) =
      match getLevel fuel store cache levelId with
      | GetLevelOutcome.ok lvl cache1 =>
        (lvl :: (resolveEach fuel store cache1 rest).1, (resolveEach fuel store cache1 rest).2)
      | _ => resolveEach fuel store cache rest := rfl

theorem resolveEach_append (fuel : Nat) (store : Store) :
    ∀ (xs ys : List String) (cache : Cache),
      resolveEach fuel store cache (xs ++ ys) =
        ((resolveEach fuel store cache xs).1 ++ (resolveEach fuel store (resolveEach fuel store cache xs).2 ys).1,
         (resolveEach fuel store (resolveEach fuel store cache xs).2 ys).2) := by
  intro xs
  induction xs with
  | nil => intro ys cache; simp [resolveEach]
  | cons levelId rest ih =>
    intro ys cache
    rw [List.cons_append]
    simp only [resolveEach_cons]
    cases h : getLevel fuel store cache levelId with
    | ok lvl cache1 => simp [ih ys cache1]
    | noSuchEntity => exact ih ys cache
    | diverge => exact ih ys cache

/- Per-field merge helpers. -/

theorem mergeStep_has (a b : Bool) : (if (!a && b) = true then true else a) = (a || b) := by
  cases a <;> cases b <;> rfl

theorem mergeStep_val_left {α : Type} (a b : Bool) (x y : α) (h : a = true) :
    (if (!a && b) = true then y else x) = x := by
  subst h; cases b <;> rfl

theorem mergeStep_val_right {α : Type} (a b : Bool) (x y : α) (ha : a = false) (hb : b = true) :
    (if (!a && b) = true then y else x) = y := by
  subst ha; subst hb; rfl

/- Option roundtrip helpers for the conversion pair. -/

theorem option_if_roundtrip {α : Type} (o : Option α) (d : α) :
    (if o.isSome then some (o.getD d) else none) = o := by
  cases o <;> rfl

/- Per-field behaviour of a single merge step, stated once for all ten
   inheritable fields via their field views. -/
theorem mergeField_step (fv : FieldView) (hfv : fv ∈ levelFields) (c p : DatastoreLevel) :
    fv.has (MergeParentProperties c p) = (fv.has c || fv.has p) ∧
    (fv.has c = true → fv.val (MergeParentProperties c p) = fv.val c) ∧
    (fv.has c = false → fv.has p = true → fv.val (MergeParentProperties c p) = fv.val p) := by
  simp only [levelFields, List.mem_cons, List.not_mem_nil, or_false] at hfv
  rcases hfv with rfl | rfl | rfl | rfl | rfl | rfl | rfl | rfl | rfl | rfl <;>
    refine ⟨?_, ?_, ?_⟩ <;>
      simp only [MergeParentProperties, nameField, rowsField, columnsField, healthField,
        durationField, comboTimerField, unitDelayMultiplierField, maxActiveUnitsField,
        spawnsPerSecondField, spawnFrequencyField] <;>
      first
        | rw [mergeStep_has]
        | (intro h; rw [mergeStep_val_left _ _ _ _ h])
        | (intro h1 h2; rw [mergeStep_val_right _ _ _ _ h1 h2])

/- The id and parent-reference fields are never touched by merging. -/
theorem mergeChain_own : ∀ (chain : List DatastoreLevel) (l0 : DatastoreLevel),
    (mergeChain l0 chain).Key = l0.Key ∧ (mergeChain l0 chain).HasKey = l0.HasKey ∧
    (mergeChain l0 chain).Parent = l0.Parent ∧ (mergeChain l0 chain).HasParent = l0.HasParent := by
  intro chain
  induction chain with
  | nil => intro l0; exact ⟨rfl, rfl, rfl, rfl⟩
  | cons p rest ih => intro l0; exact ⟨rfl, rfl, rfl, rfl⟩

/- Per-field value of a merged chain: the first chain member that sets a
   field provides its merged value; if nobody sets it, it stays unset. -/
theorem mergeChain_field (fv : FieldView) (hfv : fv ∈ levelFields) :
    ∀ (chain : List DatastoreLevel) (l0 : DatastoreLevel),
      ((l0 :: chain).find? fv.has).map fv.val =
        (if fv.has (mergeChain l0 chain) = true then some (fv.val (mergeChain l0 chain)) else none) := by
  intro chain
  induction chain with
  | nil =>
    intro l0
    cases h : fv.has l0 with
    | false =>
      rw [List.find?_cons_of_neg]
      · simp [mergeChain, h]
      · simp [h]
    | true =>
      rw [List.find?_cons_of_pos]
      · simp [mergeChain, h]
      · exact h
  | cons p rest ih =>
    intro l0
    have hstep := mergeField_step fv hfv l0 (mergeChain p rest)
    simp only [mergeChain]
    cases h : fv.has l0 with
    | false =>
      have hfind : (l0 :: p :: rest).find? fv.has = (p :: rest).find? fv.has := by
        rw [List.find?_cons_of_neg]
        simp [h]
      rw [hfind, ih p, hstep.1, h]
      simp only [Bool.false_or]
      cases h2 : fv.has (mergeChain p rest) with
      | false => simp
      | true => simp [hstep.2.2 h h2]
    | true =>
      have hfind : (l0 :: p :: rest).find? fv.has = some l0 := by
        rw [List.find?_cons_of_pos]
        exact h
      rw [hfind, hstep.1, h]
      simp [hstep.2.1 h]

/- One-step unfolding of getLevel at positive fuel. -/
theorem getLevel_step (fuel : Nat) (store : Store) (cache : Cache) (levelId : String) :
    getLevel (fuel + 1) store cache levelId =
      match cacheGetLevel cache levelId with
      | some cached => GetLevelOutcome.ok cached cache
      | none =>
        match storeGet store levelId with
        | none => GetLevelOutcome.noSuchEntity
        | some raw =>
          if hasUsableParent raw then
            match getLevel fuel store cache raw.Parent with
            | GetLevelOutcome.ok parentLevel cache1 =>
              GetLevelOutcome.ok (MergeParentProperties raw parentLevel)
                (alistPut cache1 (levelCacheKey (MergeParentProperties raw parentLevel).Key)
                  (CacheVal.levelVal (MergeParentProperties raw parentLevel)))
            | GetLevelOutcome.noSuchEntity => GetLevelOutcome.noSuchEntity
            | GetLevelOutcome.diverge => GetLevelOutcome.diverge
          else
            GetLevelOutcome.ok raw (alistPut cache (levelCacheKey raw.Key) (CacheVal.levelVal raw)) := rfl

/- With an empty cache and enough fuel, getLevel computes exactly the
   merged chain, caching the finalized record. -/
theorem getLevel_resolves_chain (store : Store) :
    ∀ (chain : List DatastoreLevel) (levelId : String) (l0 : DatastoreLevel) (fuel : Nat),
      chainInStore store levelId l0 chain = true →
      chain.length < fuel →
      ∃ cache1, getLevel fuel store [] levelId = GetLevelOutcome.ok (mergeChain l0 chain) cache1 := by
  intro chain
  induction chain with
  | nil =>
    intro levelId l0 fuel hchain hfuel
    simp only [chainInStore, Bool.and_eq_true, beq_iff_eq, Bool.not_eq_true'] at hchain
    obtain ⟨hstore, hpar⟩ := hchain
    cases fuel with
    | zero => omega
    | succ f =>
      have hmiss : cacheGetLevel ([] : Cache) levelId = none := rfl
      have hthis : getLevel (f + 1) store [] levelId =
          GetLevelOutcome.ok l0 (alistPut [] (levelCacheKey l0.Key) (CacheVal.levelVal l0)) := by
        rw [getLevel_step]
        simp only [hmiss, hstore, hpar, Bool.false_eq_true, if_false]
      exact ⟨_, hthis⟩
  | cons p rest ih =>
    intro levelId l0 fuel hchain hfuel
    simp only [chainInStore, Bool.and_eq_true, beq_iff_eq] at hchain
    obtain ⟨⟨hstore, hpar⟩, hrest⟩ := hchain
    cases fuel with
    | zero => simp at hfuel
    | succ f =>
      have hf : rest.length < f := by
        rw [List.length_cons] at hfuel
        omega
      obtain ⟨cache1, hrec⟩ := ih l0.Parent p f hrest hf
      have hmiss : cacheGetLevel ([] : Cache) levelId = none := rfl
      have hthis : getLevel (f + 1) store [] levelId =
          GetLevelOutcome.ok (MergeParentProperties l0 (mergeChain p rest))
            (alistPut cache1 (levelCacheKey (MergeParentProperties l0 (mergeChain p rest)).Key)
              (CacheVal.levelVal (MergeParentProperties l0 (mergeChain p rest)))) := by
        rw [getLevel_step]
        simp [hmiss, hstore, hpar, hrec]
      exact ⟨_, hthis⟩

/- Spawn-frequency map helpers for the conversion roundtrip. -/
theorem spawn_pair_map_id (l : List (String × Float32)) :
    (l.map (fun kv => ({ UnitType := kv.1, SpawnFrequency := kv.2 } : datastoreSpawnFrequency))).map
      (fun e => (e.UnitType, e.SpawnFrequency)) = l := by
  induction l with
  | nil => rfl
  | cons kv rest ih => simp only [List.map_cons, ih]

theorem spawnFrequency_roundtrip (o : Option (List (String × Float32))) :
    (if o.isSome then
       some (((o.getD []).map
           (fun kv => ({ UnitType := kv.1, SpawnFrequency := kv.2 } : datastoreSpawnFrequency))).map
         (fun e => (e.UnitType, e.SpawnFrequency)))
     else none) = o := by
  cases o with
  | none => rfl
  | some l => exact congrArg some (spawn_pair_map_id l)

theorem queryKeys_length_le (queryOk : Bool) (store : Store) :
    (queryKeys queryOk store).length ≤ 100 := by
  cases queryOk
  · simp [queryKeys]
  · simp only [queryKeys, if_true, List.length_take]
    exact Nat.min_le_left _ _

/-- C8: converting a JsonLevel to the datastore representation and back
yields the very same JsonLevel: nil fields stay nil, set fields keep their
values, and the spawn-frequency map keeps exactly its key/value pairs. -/
theorem json_datastore_roundtrip (j : JsonLevel) : ToJsonLevel (ToDatastoreLevel j) = j := by
  cases j with
  | mk K P N R C H D CT U M S F =>
    cases F with
    | none => simp [ToDatastoreLevel, ToJsonLevel, option_if_roundtrip]
    | some l =>
      simp [ToDatastoreLevel, ToJsonLevel, option_if_roundtrip, spawn_pair_map_id,
        Function.comp_def, Prod.mk.eta, List.map_id']

/-- C9: an upsert always stores the record under the id taken from the URL
path: the stored Key field equals the path id and is marked present, and
any key supplied in the request body is irrelevant (two bodies differing
only in their key produce identical results). -/
theorem upsert_key_from_path (queryChildrenOk : Bool) (body : JsonLevel) (pathId : String)
    (w : World) (bodyKey : Option String) :
    handlePost true queryChildrenOk { body with Key := bodyKey } pathId w =
      handlePost true queryChildrenOk body pathId w ∧
    ∃ lvl, storeGet (handlePost true queryChildrenOk body pathId w).2.store pathId = some lvl ∧
      lvl.Key = pathId ∧ lvl.HasKey = true := by
  constructor
  · rfl
  · exact ⟨ToDatastoreLevel { body with Key := some pathId },
      alistGet_put_self w.store pathId _, rfl, rfl⟩

/-- C5: a mutation whose datastore write succeeds reports 200 to the
caller even when the children query inside the invalidation fails; the
response is identical to the one produced when that query succeeds.  This
holds for both the upsert and the delete handler. -/
theorem mutation_success_despite_child_query_failure (body : JsonLevel) (pathId levelId : String) (w : World) :
    (handlePost true false body pathId w).1 = { code := 200, body := RespBody.nullBody } ∧
    (handlePost true false body pathId w).1 = (handlePost true true body pathId w).1 ∧
    (handleDelete true false levelId w).1 = { code := 200, body := RespBody.nullBody } ∧
    (handleDelete true false levelId w).1 = (handleDelete true true levelId w).1 :=
  ⟨rfl, rfl, rfl, rfl⟩

/-- C10: when the response cache misses and the keys-only enumeration
query fails, handleQuery still answers 200 with an empty list and stores
that empty-list response in the response cache under the aggregate key. -/
theorem listing_query_failure_ignored (fuel : Nat) (w : World)
    (hmiss : alistGet w.cache (responseCacheKey queryAllKey) = none) :
    (handleQuery false fuel w).1 = { code := 200, body := RespBody.listBody [] } ∧
    alistGet (handleQuery false fuel w).2.cache (responseCacheKey queryAllKey) =
      some (CacheVal.respVal { Path := queryAllKey, Code := 200, Response := RespBody.listBody [] }) := by
  have hq : handleQuery false fuel w =
      ({ code := 200, body := RespBody.listBody [] },
       { store := w.store,
         cache := alistPut w.cache (responseCacheKey queryAllKey)
           (CacheVal.respVal { Path := queryAllKey, Code := 200, Response := RespBody.listBody [] }) }) := by
    unfold handleQuery
    rw [hmiss]
    rfl
  rw [hq]
  exact ⟨rfl, alistGet_put_self _ _ _⟩

/-- C10 witness: the theorem applied to the empty world. -/
theorem listing_query_failure_ignored_witness :
    (handleQuery false 5 { store := [], cache := [] }).1 = { code := 200, body := RespBody.listBody [] } ∧
    alistGet (handleQuery false 5 { store := [], cache := [] }).2.cache (responseCacheKey queryAllKey) =
      some (CacheVal.respVal { Path := queryAllKey, Code := 200, Response := RespBody.listBody [] }) :=
  listing_query_failure_ignored 5 { store := [], cache := [] } rfl

/-- C6: on a response-cache miss, the listing enumerates ids with the
keys-only query limited to 100 and resolves each id in query order; the
returned list never exceeds 100 entries, however many records exist. -/
theorem listing_limit_100 (queryOk : Bool) (fuel : Nat) (w : World)
    (hmiss : alistGet w.cache (responseCacheKey queryAllKey) = none) :
    ∃ ls, (handleQuery queryOk fuel w).1 = { code := 200, body := RespBody.listBody ls } ∧
      ls.length ≤ 100 ∧
      ls = (resolveEach fuel w.store w.cache (queryKeys queryOk w.store)).1.map ToJsonLevel := by
  have hq1 : (handleQuery queryOk fuel w).1 =
      { code := 200,
        body := RespBody.listBody
          ((resolveEach fuel w.store w.cache (queryKeys queryOk w.store)).1.map ToJsonLevel) } := by
    unfold handleQuery
    rw [hmiss]
  refine ⟨_, hq1, ?_, rfl⟩
  rw [List.length_map]
  exact Nat.le_trans (resolveEach_length_le fuel w.store _ _) (queryKeys_length_le queryOk w.store)

/-- C6 witness: the theorem applied to a one-entity store with an empty
cache. -/
theorem listing_limit_100_witness :
    ∃ ls, (handleQuery true 5 { store := [("a", exLevelA)], cache := [] }).1 =
        { code := 200, body := RespBody.listBody ls } ∧
      ls.length ≤ 100 ∧
      ls = (resolveEach 5 [("a", exLevelA)] [] (queryKeys true [("a", exLevelA)])).1.map ToJsonLevel :=
  listing_limit_100 true 5 { store := [("a", exLevelA)], cache := [] } rfl

/-- C7: during a listing (response-cache miss), an enumerated id whose
resolution fails is omitted while every other id is still resolved and
returned, and the listing itself still answers 200. -/
theorem listing_skips_failing_child (fuel : Nat) (w : World) (ids1 : List String)
    (levelId : String) (ids2 : List String)
    (hmiss : alistGet w.cache (responseCacheKey queryAllKey) = none)
    (hsplit : queryKeys true w.store = ids1 ++ levelId :: ids2)
    (hfail : isOk (getLevel fuel w.store (resolveEach fuel w.store w.cache ids1).2 levelId) = false) :
    (handleQuery true fuel w).1 =
      { code := 200,
        body := RespBody.listBody
          (((resolveEach fuel w.store w.cache ids1).1 ++
            (resolveEach fuel w.store (resolveEach fuel w.store w.cache ids1).2 ids2).1).map ToJsonLevel) } := by
  have hq1 : (handleQuery true fuel w).1 =
      { code := 200,
        body := RespBody.listBody
          ((resolveEach fuel w.store w.cache (queryKeys true w.store)).1.map ToJsonLevel) } := by
    unfold handleQuery
    rw [hmiss]
  have hskip : resolveEach fuel w.store (resolveEach fuel w.store w.cache ids1).2 (levelId :: ids2)
      = resolveEach fuel w.store (resolveEach fuel w.store w.cache ids1).2 ids2 := by
    rw [resolveEach_cons]
    cases hg : getLevel fuel w.store (resolveEach fuel w.store w.cache ids1).2 levelId with
    | ok lvl cache1 =>
      rw [hg] at hfail
      simp [isOk] at hfail
    | noSuchEntity => rfl
    | diverge => rfl
  rw [hq1, hsplit, resolveEach_append fuel w.store ids1 (levelId :: ids2) w.cache, hskip]

/-- C7 witness: a listing over a healthy record and a record with a
dangling parent reference returns the healthy record and skips the other. -/
theorem listing_skips_failing_child_witness :
    (handleQuery true 5 exListWorld).1 =
      { code := 200,
        body := RespBody.listBody
          (((resolveEach 5 exListWorld.store exListWorld.cache ["a"]).1 ++
            (resolveEach 5 exListWorld.store
              (resolveEach 5 exListWorld.store exListWorld.cache ["a"]).2 []).1).map ToJsonLevel) } :=
  listing_skips_failing_child 5 exListWorld ["a"] "x" [] rfl (by decide) (by decide)

theorem string_length_ne_zero {s : String} (h : s ≠ "") : (s.length != 0) = true := by
  rw [bne_iff_ne]
  intro h0
  apply h
  cases s with
  | mk data =>
    cases data with
    | nil => rfl
    | cons c cs => simp [String.length] at h0

/-- C2 counterexample: a record that sets every one of its fields and
carries a parent reference.  Under the claim, no unset field means the
parent must not be resolved, so resolving the record (whose own store
entry exists) would succeed with its own values; the code nevertheless
resolves the (dangling) parent and the whole resolution fails with
noSuchEntity. -/
theorem parent_resolution_ignores_field_presence_cex :
    getLevel 5 exFullStore [] "c" = GetLevelOutcome.noSuchEntity := by decide

/-- C2 (amended): on a cache miss for a record found in the datastore, the
parent is recursively resolved if and only if the record has a parent
reference with a non-empty id; whether any field is unset plays no role.
Part one: without a usable parent reference, the record resolves to
itself (no parent lookup can fail it).  Part two: with a usable parent
reference whose target is absent, the resolution fails with noSuchEntity,
with no hypothesis at all about field presence. -/
theorem parent_resolution_guard (fuel : Nat) (store : Store) (cache : Cache) (levelId : String)
    (raw : DatastoreLevel)
    (hmiss : cacheGetLevel cache levelId = none)
    (hget : storeGet store levelId = some raw) :
    (hasUsableParent raw = false →
      getLevel (fuel + 2) store cache levelId =
        GetLevelOutcome.ok raw (alistPut cache (levelCacheKey raw.Key) (CacheVal.levelVal raw))) ∧
    (hasUsableParent raw = true →
      cacheGetLevel cache raw.Parent = none →
      storeGet store raw.Parent = none →
      getLevel (fuel + 2) store cache levelId = GetLevelOutcome.noSuchEntity) := by
  constructor
  · intro hpar
    show getLevel (fuel + 1 + 1) store cache levelId = _
    rw [getLevel_step]
    simp [hmiss, hget, hpar]
  · intro hpar hpmiss hpabs
    have hrec : getLevel (fuel + 1) store cache raw.Parent = GetLevelOutcome.noSuchEntity := by
      rw [getLevel_step]
      simp [hpmiss, hpabs]
    show getLevel (fuel + 1 + 1) store cache levelId = _
    rw [getLevel_step]
    simp [hmiss, hget, hpar, hrec]

/-- C2 witness: the guard theorem applied to the fully-set record with a
dangling parent reference. -/
theorem parent_resolution_guard_witness :
    getLevel 7 exFullStore [] "c" = GetLevelOutcome.noSuchEntity :=
  (parent_resolution_guard 5 exFullStore [] "c" exFullLevel rfl (by decide)).2
    (by decide) rfl (by decide)

/-- C4 counterexample: a stored record whose parent reference names the
empty id, which is absent from the store.  The claim demands a noSuchEntity
failure, but the resolver (whose guard also requires a non-empty parent
id) succeeds and returns the record. -/
theorem dangling_parent_empty_id_cex :
    storeGet exEmptyParentStore exEmptyParentLevel.Parent = none ∧
    exEmptyParentLevel.HasParent = true ∧
    isOk (getLevel 5 exEmptyParentStore [] "c") = true := by decide

/-- C4 (amended): a record present in the store whose non-empty parent id
is absent (from store and cache) fails to resolve with noSuchEntity on a
cache miss, the very outcome produced for a wholly absent record (the
second conjunct resolves the absent parent id directly). -/
theorem dangling_parent_not_found (fuel : Nat) (store : Store) (cache : Cache) (levelId : String)
    (raw : DatastoreLevel)
    (hmiss : cacheGetLevel cache levelId = none)
    (hget : storeGet store levelId = some raw)
    (hhas : raw.HasParent = true)
    (hne : raw.Parent ≠ "")
    (hpmiss : cacheGetLevel cache raw.Parent = none)
    (hpabs : storeGet store raw.Parent = none) :
    getLevel (fuel + 2) store cache levelId = GetLevelOutcome.noSuchEntity ∧
    getLevel (fuel + 2) store cache raw.Parent = GetLevelOutcome.noSuchEntity := by
  have hpar : hasUsableParent raw = true := by
    unfold hasUsableParent
    rw [hhas, string_length_ne_zero hne]
    rfl
  constructor
  · have hrec : getLevel (fuel + 1) store cache raw.Parent = GetLevelOutcome.noSuchEntity := by
      rw [getLevel_step]
      simp [hpmiss, hpabs]
    show getLevel (fuel + 1 + 1) store cache levelId = _
    rw [getLevel_step]
    simp [hmiss, hget, hpar, hrec]
  · show getLevel (fuel + 1 + 1) store cache raw.Parent = _
    rw [getLevel_step]
    simp [hpmiss, hpabs]

/-- C4 witness: the record with parent id zzz, absent from its store. -/
theorem dangling_parent_not_found_witness :
    getLevel 7 exListStore [] "x" = GetLevelOutcome.noSuchEntity ∧
    getLevel 7 exListStore [] "zzz" = GetLevelOutcome.noSuchEntity :=
  dangling_parent_not_found 5 exListStore [] "x" exDanglingLevel rfl (by decide)
    (by decide) (by decide) rfl (by decide)

/-- C3: resolving an entity over a well-formed ancestor chain (each link
present in the store, the last member parentless, enough fuel, cold
cache) returns the merged chain; the merged Key and Parent fields (and
their flags) are exactly the entity's own, and for every inheritable
field the merged value is the one of the first chain member that sets it
(entity first, then nearest ancestor), staying unset when no member sets
it. -/
theorem resolve_merges_ancestor_chain (store : Store) (levelId : String) (l0 : DatastoreLevel)
    (chain : List DatastoreLevel) (fuel : Nat)
    (hchain : chainInStore store levelId l0 chain = true)
    (hfuel : chain.length < fuel) :
    (∃ cache1, getLevel fuel store [] levelId = GetLevelOutcome.ok (mergeChain l0 chain) cache1) ∧
    (mergeChain l0 chain).Key = l0.Key ∧ (mergeChain l0 chain).HasKey = l0.HasKey ∧
    (mergeChain l0 chain).Parent = l0.Parent ∧ (mergeChain l0 chain).HasParent = l0.HasParent ∧
    (∀ fv ∈ levelFields,
      ((l0 :: chain).find? fv.has).map fv.val =
        (if fv.has (mergeChain l0 chain) = true then some (fv.val (mergeChain l0 chain)) else none)) := by
  obtain ⟨c1, hc1⟩ := getLevel_resolves_chain store chain levelId l0 fuel hchain hfuel
  have hown := mergeChain_own chain l0
  exact ⟨⟨c1, hc1⟩, hown.1, hown.2.1, hown.2.2.1, hown.2.2.2,
    fun fv hfv => mergeChain_field fv hfv chain l0⟩

/-- C3 witness: the chain theorem applied to a child with one ancestor. -/
theorem resolve_merges_ancestor_chain_witness :
    (∃ cache1, getLevel 5 exChainStore [] "b" =
        GetLevelOutcome.ok (mergeChain exLevelB [exLevelA]) cache1) ∧
    (mergeChain exLevelB [exLevelA]).Key = exLevelB.Key ∧
    (mergeChain exLevelB [exLevelA]).HasKey = exLevelB.HasKey ∧
    (mergeChain exLevelB [exLevelA]).Parent = exLevelB.Parent ∧
    (mergeChain exLevelB [exLevelA]).HasParent = exLevelB.HasParent ∧
    (∀ fv ∈ levelFields,
      ((exLevelB :: [exLevelA]).find? fv.has).map fv.val =
        (if fv.has (mergeChain exLevelB [exLevelA]) = true
         then some (fv.val (mergeChain exLevelB [exLevelA])) else none)) :=
  resolve_merges_ancestor_chain exChainStore "b" exLevelB [exLevelA] 5 (by decide) (by decide)

/-- C1 counterexample: a three-level tree a-b-c stored with b a child of a
and c a child of b; the cache holds the entries of c.  After an upsert of
a (which runs all three invalidation steps), b is a direct child of a and
c a direct child of b, yet both cache entries of the grandchild c are
still present, contradicting the claim that every transitive descendant
is evicted. -/
theorem invalidation_misses_grandchild_cex :
    "b" ∈ childKeys (handlePost true true ({} : JsonLevel) "a" exTreeWorld).2.store "a" ∧
    "c" ∈ childKeys (handlePost true true ({} : JsonLevel) "a" exTreeWorld).2.store "b" ∧
    alistGet ((handlePost true true ({} : JsonLevel) "a" exTreeWorld).2.cache) (levelCacheKey "c") =
      some (CacheVal.levelVal exLevelC) ∧
    alistGet ((handlePost true true ({} : JsonLevel) "a" exTreeWorld).2.cache)
      (responseCacheKey (buildResourcePath "c")) ≠ none := by decide

/-- C1 (amended): after a successful write or delete of an id, the
invalidation steps evict the two cache entries of that id, the two cache
entries of every direct child (as found by the parent-scoped query), and
the aggregate-listing entry; descendants deeper than one level are not
touched. -/
theorem invalidation_evicts_direct_children (body : JsonLevel) (pathId : String) (w : World) :
    (∀ cid ∈ childKeys (handlePost true true body pathId w).2.store pathId,
      alistGet (handlePost true true body pathId w).2.cache (levelCacheKey cid) = none ∧
      alistGet (handlePost true true body pathId w).2.cache (responseCacheKey (buildResourcePath cid)) = none) ∧
    alistGet (handlePost true true body pathId w).2.cache (levelCacheKey pathId) = none ∧
    alistGet (handlePost true true body pathId w).2.cache (responseCacheKey (buildResourcePath pathId)) = none ∧
    alistGet (handlePost true true body pathId w).2.cache (responseCacheKey queryAllKey) = none ∧
    (∀ cid ∈ childKeys (handleDelete true true pathId w).2.store pathId,
      alistGet (handleDelete true true pathId w).2.cache (levelCacheKey cid) = none ∧
      alistGet (handleDelete true true pathId w).2.cache (responseCacheKey (buildResourcePath cid)) = none) ∧
    alistGet (handleDelete true true pathId w).2.cache (levelCacheKey pathId) = none ∧
    alistGet (handleDelete true true pathId w).2.cache (responseCacheKey (buildResourcePath pathId)) = none ∧
    alistGet (handleDelete true true pathId w).2.cache (responseCacheKey queryAllKey) = none := by
  have hpost := cascade_invalidation
    (alistPut w.store pathId (ToDatastoreLevel { body with Key := some pathId })) w.cache pathId
  have hdel := cascade_invalidation (alistDel w.store pathId) w.cache pathId
  exact ⟨hpost.1, hpost.2.1, hpost.2.2.1, hpost.2.2.2,
    hdel.1, hdel.2.1, hdel.2.2.1, hdel.2.2.2⟩

/-- C1 witness: in the a-b-c tree, the direct child b loses its level
cache entry after the upsert of a. -/
theorem invalidation_evicts_direct_children_witness :
    alistGet ((handlePost true true ({} : JsonLevel) "a" exTreeWorld).2.cache) (levelCacheKey "b") = none := by
  have h := invalidation_evicts_direct_children ({} : JsonLevel) "a" exTreeWorld
  exact (h.1 "b" (by decide)).1
